import Mathlib

set_option maxRecDepth 100000

/-
Formal model of the file-based RFID access-control authenticator
(software/earl/authenticator.go from elimisteve/rfid-access-control).

The Go source is shallowly embedded: the in-memory credential table
becomes a function from hashed-code strings to optional user records,
file-system effects (stat results, rebuild results, open errors) become
explicit parameters, and the injected clock becomes an explicit `now`
parameter (seconds; the local hour is now / 3600 % 24).  The MD5 digest
used by hashAuthCode is embedded directly from RFC 1321 over Nat bytes,
matching the crypto/md5 plus encoding/hex calls of the source.
-/

/-- Truncate a natural number to 32 bits, as Go uint32 arithmetic does. -/
def u32 (n : Nat) : Nat := n % 4294967296

/-- Rotate a 32-bit word left by n bits. -/
def rotl32 (x n : Nat) : Nat := u32 ((x <<< n) ||| (x >>> (32 - n)))

/-- The 64 sine-derived constants of MD5 (RFC 1321 T table). -/
def md5K : List Nat :=
  [0xd76aa478, 0xe8c7b756, 0x242070db, 0xc1bdceee,
   0xf57c0faf, 0x4787c62a, 0xa8304613, 0xfd469501,
   0x698098d8, 0x8b44f7af, 0xffff5bb1, 0x895cd7be,
   0x6b901122, 0xfd987193, 0xa679438e, 0x49b40821,
   0xf61e2562, 0xc040b340, 0x265e5a51, 0xe9b6c7aa,
   0xd62f105d, 0x02441453, 0xd8a1e681, 0xe7d3fbc8,
   0x21e1cde6, 0xc33707d6, 0xf4d50d87, 0x455a14ed,
   0xa9e3e905, 0xfcefa3f8, 0x676f02d9, 0x8d2a4c8a,
   0xfffa3942, 0x8771f681, 0x6d9d6122, 0xfde5380c,
   0xa4beea44, 0x4bdecfa9, 0xf6bb4b60, 0xbebfbc70,
   0x289b7ec6, 0xeaa127fa, 0xd4ef3085, 0x04881d05,
   0xd9d4d039, 0xe6db99e5, 0x1fa27cf8, 0xc4ac5665,
   0xf4292244, 0x432aff97, 0xab9423a7, 0xfc93a039,
   0x655b59c3, 0x8f0ccc92, 0xffeff47d, 0x85845dd1,
   0x6fa87e4f, 0xfe2ce6e0, 0xa3014314, 0x4e0811a1,
   0xf7537e82, 0xbd3af235, 0x2ad7d2bb, 0xeb86d391]

/-- The 64 per-round left-rotation amounts of MD5. -/
def md5S : List Nat :=
  [7, 12, 17, 22, 7, 12, 17, 22, 7, 12, 17, 22, 7, 12, 17, 22,
   5, 9, 14, 20, 5, 9, 14, 20, 5, 9, 14, 20, 5, 9, 14, 20,
   4, 11, 16, 23, 4, 11, 16, 23, 4, 11, 16, 23, 4, 11, 16, 23,
   6, 10, 15, 21, 6, 10, 15, 21, 6, 10, 15, 21, 6, 10, 15, 21]

/-- Round function F of MD5. -/
def md5F (b c d : Nat) : Nat := (b &&& c) ||| ((b ^^^ 0xffffffff) &&& d)

/-- Round function G of MD5. -/
def md5G (b c d : Nat) : Nat := (d &&& b) ||| ((d ^^^ 0xffffffff) &&& c)

/-- Round function H of MD5. -/
def md5H (b c d : Nat) : Nat := b ^^^ c ^^^ d

/-- Round function I of MD5. -/
def md5I (b c d : Nat) : Nat := c ^^^ (b ||| (d ^^^ 0xffffffff))

/-- The four 32-bit words of the running MD5 state. -/
structure MD5State where
  a : Nat
  b : Nat
  c : Nat
  d : Nat

/-- Little-endian 32-bit message word j of a 64-byte block. -/
def blockWord (block : List Nat) (j : Nat) : Nat :=
  block.getD (4 * j) 0 + 256 * block.getD (4 * j + 1) 0
    + 65536 * block.getD (4 * j + 2) 0 + 16777216 * block.getD (4 * j + 3) 0

/-- One of the 64 steps of the MD5 compression function. -/
def md5Step (M : Nat → Nat) (st : MD5State) (i : Nat) : MD5State :=
  let f :=
    if i < 16 then md5F st.b st.c st.d
    else if i < 32 then md5G st.b st.c st.d
    else if i < 48 then md5H st.b st.c st.d
    else md5I st.b st.c st.d
  let g :=
    if i < 16 then i
    else if i < 32 then (5 * i + 1) % 16
    else if i < 48 then (3 * i + 5) % 16
    else (7 * i) % 16
  let f2 := u32 (f + st.a + md5K.getD i 0 + M g)
  ⟨st.d, u32 (st.b + rotl32 f2 (md5S.getD i 0)), st.b, st.c⟩

/-- MD5 compression of one 64-byte block into the running state. -/
def md5Compress (st : MD5State) (block : List Nat) : MD5State :=
  let r := (List.range 64).foldl (md5Step (blockWord block)) st
  ⟨u32 (st.a + r.a), u32 (st.b + r.b), u32 (st.c + r.c), u32 (st.d + r.d)⟩

/-- MD5 padding: append 0x80, zeros to 56 mod 64, then the bit length
as a little-endian 64-bit integer. -/
def md5Pad (msg : List Nat) : List Nat :=
  msg ++ 0x80 :: List.replicate ((119 - msg.length % 64) % 64) 0
    ++ (List.range 8).map (fun i => (((msg.length * 8) % 18446744073709551616) >>> (8 * i)) % 256)

/-- The fixed MD5 initialization vector. -/
def md5Init : MD5State := ⟨0x67452301, 0xefcdab89, 0x98badcfe, 0x10325476⟩

/-- Serialize a 32-bit word to four little-endian bytes. -/
def le4 (w : Nat) : List Nat := [w % 256, (w / 256) % 256, (w / 65536) % 256, (w / 16777216) % 256]

/-- The 16-byte MD5 digest of a byte sequence. -/
def md5Bytes (msg : List Nat) : List Nat :=
  let padded := md5Pad msg
  let final := (List.range (padded.length / 64)).foldl
    (fun st i => md5Compress st ((padded.drop (64 * i)).take 64)) md5Init
  le4 final.a ++ le4 final.b ++ le4 final.c ++ le4 final.d

/-- UTF-8 encoding of one character, as Go string bytes are UTF-8. -/
def charBytes (ch : Char) : List Nat :=
  let n := ch.toNat
  if n < 128 then [n]
  else if n < 2048 then [192 ||| (n >>> 6), 128 ||| (n &&& 63)]
  else if n < 65536 then
    [224 ||| (n >>> 12), 128 ||| ((n >>> 6) &&& 63), 128 ||| (n &&& 63)]
  else
    [240 ||| (n >>> 18), 128 ||| ((n >>> 12) &&& 63), 128 ||| ((n >>> 6) &&& 63), 128 ||| (n &&& 63)]

/-- The byte sequence of a string, mirroring how Go views a string. -/
def strBytes (s : String) : List Nat := (s.data.map charBytes).flatten

/-- The lowercase hexadecimal digit table of encoding/hex. -/
def hexDigits : List Char := "0123456789abcdef".data

/-- Hexadecimal digit character for a nibble value. -/
def hexChar (n : Nat) : Char := hexDigits.getD n '0'

/-- Two hexadecimal characters of one byte, high nibble first. -/
def byteHex (b : Nat) : List Char := [hexChar (b / 16), hexChar (b % 16)]

/-- Lowercase hex string of a byte sequence (encoding/hex EncodeToString). -/
def hexEncodeBytes (bs : List Nat) : String := String.mk ((bs.map byteHex).flatten)

/-- hashAuthCode from authenticator.go: md5 of a fixed salt prefix plus
the plain code, rendered as a lowercase hex string. -/
def hashAuthCode (plain : String) : String :=
  hexEncodeBytes (md5Bytes (strBytes (String.append "MakeThisALittleBitLongerToChewOnEarlFoo" plain)))

-- RFC 1321 test vectors validating the MD5 embedding.
example : hexEncodeBytes (md5Bytes (strBytes "")) = "d41d8cd98f00b204e9800998ecf8427e" := by decide
example : hexEncodeBytes (md5Bytes (strBytes "abc")) = "900150983cd24fb0d6963f7d28e17f72" := by
  decide

/-- Modelled from the spec: the access-level enumeration. The Level type
declaration is not under src (only authenticator.go is); the spec
describes it as the enumeration Member, FulltimeUser, RegularUser
(LevelUser in the source), Hiatus, Legacy, used as an opaque tag read
from the CSV text, so it is modelled as a string with five distinct
constants. -/
abbrev Level := String

/-- Modelled from the spec: the Member level constant. -/
def LevelMember : Level := "member"

/-- Modelled from the spec: the FulltimeUser level constant. -/
def LevelFulltimeUser : Level := "fulltimeuser"

/-- Modelled from the spec: the RegularUser level constant (named
LevelUser in the source). -/
def LevelUser : Level := "user"

/-- Modelled from the spec: the Hiatus level constant. -/
def LevelHiatus : Level := "hiatus"

/-- Modelled from the spec: the Legacy level constant. -/
def LevelLegacy : Level := "legacy"

/-- Modelled from the spec: the Target zone tag, an opaque tag with one
designated downstairs zone; its declaration is not under src. -/
abbrev Target := String

/-- Modelled from the spec: the designated downstairs zone. -/
def TargetDownstairs : Target := "downstairs"

/-- Modelled from the spec: the Identity Record (User). Its declaration
is not under src; per the spec it carries a display name, contact info,
a level, the list of hashed credential codes, validity-window bounds
(ValidFrom defaulting to creation time when zero) and the sponsor
trail. Times are modelled as Nat seconds, zero meaning unset. -/
structure User where
  Name : String
  ContactInfo : String
  UserLevel : Level
  Codes : List String
  ValidFrom : Nat
  ValidThru : Nat
  Sponsors : List String
  deriving DecidableEq

/-- Modelled from the spec: the validity-window check on a record, not
under src. The record is usable from ValidFrom on, and up to ValidThru
when that bound is set (zero meaning no expiry). -/
def User.InValidityPeriod (u : User) (now : Nat) : Bool :=
  decide (u.ValidFrom ≤ now) && (decide (u.ValidThru = 0) || decide (now ≤ u.ValidThru))

/-- The FileBasedAuthenticator state: backing-file name, the modified
marker recorded at last load, and the credential table. The injected
clock is modelled as an explicit now parameter of each operation, and
file-system effects as explicit parameters. -/
structure FileBasedAuthenticator where
  userFilename : String
  fileTimestamp : Nat
  validUsers : String → Option User

/-- hasMinimalCodeRequirements from authenticator.go: the code must be
at least 6 bytes long (Go len counts bytes). -/
def hasMinimalCodeRequirements (code : String) : Bool :=
  decide (6 ≤ (strBytes code).length)

/-- The local hour of a clock value in seconds. -/
def hourOf (now : Nat) : Nat := now / 3600 % 24

/-- isUserDaytime from authenticator.go: 11:00 to 21:59. -/
def isUserDaytime (now : Nat) : Bool :=
  decide (11 ≤ hourOf now) && decide (hourOf now < 22)

/-- isFulltimeUserDaytime from authenticator.go: 7:00 to 23:59. -/
def isFulltimeUserDaytime (now : Nat) : Bool :=
  decide (7 ≤ hourOf now) && decide (hourOf now ≤ 23)

/-- findUserSynchronized from authenticator.go: hash the plain code and
look it up in the table. -/
def findUserSynchronized (a : FileBasedAuthenticator) (plain_code : String) : Option User :=
  a.validUsers (hashAuthCode plain_code)

/-- The insertion loop of addUserSynchronized: map each code of the
record to the record, in order. -/
def insertCodes (m : String → Option User) (u : User) : List String → (String → Option User)
  | [] => m
  | c :: rest => insertCodes (fun k => if k = c then some u else m k) u rest

/-- addUserSynchronized from authenticator.go: first verify that none of
the codes of the record is already mapped; reject without mutation on
any collision, otherwise map every code to the record. -/
def addUserSynchronized (a : FileBasedAuthenticator) (user : User) :
    Bool × FileBasedAuthenticator :=
  if user.Codes.any (fun code => (a.validUsers code).isSome) then (false, a)
  else (true, { a with validUsers := insertCodes a.validUsers user user.Codes })

/-- reloadIfChanged from authenticator.go. File effects are explicit:
statResult is the outcome of os.Stat on the user file (none on error,
otherwise the modified marker), rebuilt is the outcome of
NewFileBasedAuthenticator re-reading the file (none when that fails). -/
def reloadIfChanged (a : FileBasedAuthenticator) (statResult : Option Nat)
    (rebuilt : Option FileBasedAuthenticator) : FileBasedAuthenticator :=
  match statResult with
  | none => a
  | some modTime =>
    if a.fileTimestamp = modTime then a
    else
      match rebuilt with
      | none => a
      | some newAuth =>
        { a with fileTimestamp := newAuth.fileTimestamp, validUsers := newAuth.validUsers }

/-- FindUser from authenticator.go: resolve the plain code, returning a
defensive copy of the record (value semantics in the embedding). -/
def FindUser (a : FileBasedAuthenticator) (plain_code : String) : Option User :=
  match findUserSynchronized a plain_code with
  | none => none
  | some user => some user

/-- levelHasAccess from authenticator.go: the switch over the level,
falling through to a deny with an empty reason on unknown levels. -/
def levelHasAccess (now : Nat) (level : Level) (target : Target) : Bool × String :=
  if level = LevelMember then (true, "")
  else if level = LevelFulltimeUser then
    if !isFulltimeUserDaytime now then (false, "Fulltime user outside daytime")
    else (isFulltimeUserDaytime now, "")
  else if level = LevelUser then
    if !isUserDaytime now then (false, "Regular user outside daytime")
    else (isUserDaytime now, "")
  else if level = LevelHiatus then (false, "On Hiatus")
  else if level = LevelLegacy then
    if !isUserDaytime now then (false, "Gate user outside daytime")
    else (decide (target = TargetDownstairs), "")
  else (false, "")

/-- AuthUser from authenticator.go: length floor, opportunistic reload,
lookup, Hiatus short-circuit, validity window, then the level policy.
Returns the (granted, reason) pair and the post-call state. -/
def AuthUser (a : FileBasedAuthenticator) (statResult : Option Nat)
    (rebuilt : Option FileBasedAuthenticator) (now : Nat) (code : String) (target : Target) :
    (Bool × String) × FileBasedAuthenticator :=
  if !hasMinimalCodeRequirements code then ((false, "Auth failed: too short code."), a)
  else
    let a2 := reloadIfChanged a statResult rebuilt
    match findUserSynchronized a2 code with
    | none => ((false, "No user for code"), a2)
    | some user =>
      if user.UserLevel = LevelHiatus then
        ((false, String.append "User on hiatus \x27" (String.append user.Name
          (String.append " <" (String.append user.ContactInfo ">\x27")))), a2)
      else if !user.InValidityPeriod now then ((false, "Code not valid yet/expired"), a2)
      else (levelHasAccess now user.UserLevel target, a2)

/-- The mutation AddNewUser applies to the candidate before insertion:
stamp the sponsor trail with the hashed sponsor code and default
ValidFrom to the current time when unset. -/
def stampUser (user : User) (authentication_code : String) (now : Nat) : User :=
  let user1 := { user with Sponsors := [hashAuthCode authentication_code] }
  if user1.ValidFrom = 0 then { user1 with ValidFrom := now } else user1

/-- AddNewUser from authenticator.go: sponsor checks, candidate
stamping, atomic in-memory insert, then the append to the user file.
openErr is the outcome of os.OpenFile (some err text on failure);
writeErr is the error state the csv writer accumulates during WriteCSV,
Flush and the deferred Close — the source never consults it (the Error
method of the writer is never called and the Close error is discarded),
so the result must not depend on it; newModTime is the modified marker
observed by the stat after the write. -/
def AddNewUser (a : FileBasedAuthenticator) (now : Nat) (openErr : Option String)
    (writeErr : Option String) (newModTime : Nat) (authentication_code : String) (user : User) :
    (Bool × String) × FileBasedAuthenticator :=
  match findUserSynchronized a authentication_code with
  | none => ((false, "Couldn\x27t find member with authentication code"), a)
  | some authMember =>
    if authMember.UserLevel ≠ LevelMember then ((false, "Non-member AddNewUser attempt"), a)
    else if !authMember.InValidityPeriod now then
      ((false, "Auth-Member not in valid time-frame"), a)
    else
      let user2 := stampUser user authentication_code now
      let res := addUserSynchronized a user2
      if !res.1 then ((false, "Duplicate codes while adding user"), a)
      else
        match openErr with
        | some e => ((false, e), res.2)
        | none => ((true, ""), { res.2 with fileTimestamp := newModTime })

/-- A key outside the inserted code list keeps its previous mapping. -/
theorem insertCodes_not_mem (m : String → Option User) (u : User) (codes : List String)
    (k : String) (h : k ∉ codes) : insertCodes m u codes k = m k := by
  induction codes generalizing m with
  | nil => rfl
  | cons c rest ih =>
    have hk : k ≠ c := fun he => h (he ▸ List.mem_cons_self c rest)
    have hr : k ∉ rest := fun hm => h (List.mem_cons_of_mem c hm)
    simp only [insertCodes]
    rw [ih _ hr]
    simp [hk]

/-- Every inserted code maps to the inserted record. -/
theorem insertCodes_mem (m : String → Option User) (u : User) (codes : List String)
    (k : String) (h : k ∈ codes) : insertCodes m u codes k = some u := by
  induction codes generalizing m with
  | nil => cases h
  | cons c rest ih =>
    by_cases hr : k ∈ rest
    · simp only [insertCodes]
      exact ih _ hr
    · have hk : k = c := by
        rcases List.mem_cons.mp h with h1 | h2
        · exact h1
        · exact absurd h2 hr
      simp only [insertCodes]
      rw [insertCodes_not_mem _ _ _ _ hr]
      simp [hk]

/-- On any code collision, addUserSynchronized rejects with the state
untouched. -/
theorem addUser_collision (a : FileBasedAuthenticator) (user : User)
    (h : ∃ c ∈ user.Codes, (a.validUsers c).isSome = true) :
    addUserSynchronized a user = (false, a) := by
  have hany : user.Codes.any (fun code => (a.validUsers code).isSome) = true := by
    rw [List.any_eq_true]
    rcases h with ⟨c, hc, hs⟩
    exact ⟨c, hc, hs⟩
  simp [addUserSynchronized, hany]

/-- With no collision, addUserSynchronized succeeds, maps every code of
the record to it, and changes nothing else. -/
theorem addUser_success (a : FileBasedAuthenticator) (user : User)
    (h : ∀ c ∈ user.Codes, a.validUsers c = none) :
    (addUserSynchronized a user).1 = true
    ∧ (∀ c ∈ user.Codes, (addUserSynchronized a user).2.validUsers c = some user)
    ∧ (∀ k, k ∉ user.Codes → (addUserSynchronized a user).2.validUsers k = a.validUsers k)
    ∧ (addUserSynchronized a user).2.fileTimestamp = a.fileTimestamp
    ∧ (addUserSynchronized a user).2.userFilename = a.userFilename := by
  have hany : user.Codes.any (fun code => (a.validUsers code).isSome) = false := by
    rw [List.any_eq_false]
    intro c hc
    rw [h c hc]
    simp
  refine ⟨?_, ?_, ?_, ?_, ?_⟩
  · simp [addUserSynchronized, hany]
  · intro c hc
    simp only [addUserSynchronized, hany, Bool.false_eq_true, if_false]
    exact insertCodes_mem _ _ _ _ hc
  · intro k hk
    simp only [addUserSynchronized, hany, Bool.false_eq_true, if_false]
    exact insertCodes_not_mem _ _ _ _ hk
  · simp [addUserSynchronized, hany]
  · simp [addUserSynchronized, hany]

/-- C1: insertion is all-or-nothing. If any hashed code of the record is
already mapped, addUserSynchronized returns false and the mapping is
completely unchanged; if none is, it returns true, afterwards every code
of the record maps to that record, and every other key keeps its
previous mapping (so each hashed code maps to at most one record). -/
theorem claim1_addUser_all_or_nothing (a : FileBasedAuthenticator) (user : User) :
    ((∃ c ∈ user.Codes, (a.validUsers c).isSome = true) →
      addUserSynchronized a user = (false, a))
    ∧ ((∀ c ∈ user.Codes, a.validUsers c = none) →
      (addUserSynchronized a user).1 = true
      ∧ (∀ c ∈ user.Codes, (addUserSynchronized a user).2.validUsers c = some user)
      ∧ (∀ k, k ∉ user.Codes → (addUserSynchronized a user).2.validUsers k = a.validUsers k)) := by
  refine ⟨addUser_collision a user, ?_⟩
  intro h
  have hs := addUser_success a user h
  exact ⟨hs.1, hs.2.1, hs.2.2.1⟩

/-- A record used to witness the insert behaviour. -/
def c1User : User := ⟨"Carol", "carol at example", LevelUser, ["codeA", "codeB"], 0, 0, []⟩

/-- An authenticator with an empty table for the insert witness. -/
def c1Auth : FileBasedAuthenticator := ⟨"users.csv", 0, fun _ => none⟩

/-- Witness for C1: inserting into an empty table succeeds and maps the
codes; re-inserting the same record afterwards collides and leaves the
table unchanged. -/
theorem claim1_addUser_all_or_nothing_witness :
    (addUserSynchronized c1Auth c1User).1 = true
    ∧ (addUserSynchronized c1Auth c1User).2.validUsers "codeA" = some c1User
    ∧ (addUserSynchronized c1Auth c1User).2.validUsers "other" = c1Auth.validUsers "other"
    ∧ addUserSynchronized (addUserSynchronized c1Auth c1User).2 c1User
        = (false, (addUserSynchronized c1Auth c1User).2) := by
  have h1 := claim1_addUser_all_or_nothing c1Auth c1User
  have hempty : ∀ c ∈ c1User.Codes, c1Auth.validUsers c = none := by
    intro c _
    rfl
  have h2 := h1.2 hempty
  refine ⟨h2.1, h2.2.1 "codeA" (by decide), h2.2.2 "other" (by decide), ?_⟩
  have h3 := claim1_addUser_all_or_nothing (addUserSynchronized c1Auth c1User).2 c1User
  apply h3.1
  refine ⟨"codeA", by decide, ?_⟩
  rw [h2.2.1 "codeA" (by decide)]
  rfl

/-- The FulltimeUser branch of the switch returns its daytime flag. -/
theorem levelHasAccess_fulltime_fst (now : Nat) (target : Target) :
    (levelHasAccess now LevelFulltimeUser target).1 = isFulltimeUserDaytime now := by
  simp only [levelHasAccess, LevelFulltimeUser, LevelMember]
  cases hd : isFulltimeUserDaytime now <;> simp [hd]

/-- The RegularUser branch of the switch returns its daytime flag. -/
theorem levelHasAccess_user_fst (now : Nat) (target : Target) :
    (levelHasAccess now LevelUser target).1 = isUserDaytime now := by
  simp only [levelHasAccess, LevelUser, LevelMember, LevelFulltimeUser]
  cases hd : isUserDaytime now <;> simp [hd]

/-- The daytime window of regular users, as an interval of hours. -/
theorem isUserDaytime_iff (now : Nat) :
    isUserDaytime now = true ↔ 11 ≤ hourOf now ∧ hourOf now < 22 := by
  simp [isUserDaytime]

/-- C2: the access policy grants exactly per the level table, for every
target and clock value: Member always; FulltimeUser iff the local hour
is in [7, 24); RegularUser iff it is in [11, 22); Hiatus never; Legacy
iff the hour is in [11, 22) and the target is the downstairs zone; and
any level outside the enumeration is denied. -/
theorem claim2_level_table (now : Nat) (target : Target) :
    levelHasAccess now LevelMember target = (true, "")
    ∧ ((levelHasAccess now LevelFulltimeUser target).1 = true ↔
        7 ≤ hourOf now ∧ hourOf now < 24)
    ∧ ((levelHasAccess now LevelUser target).1 = true ↔
        11 ≤ hourOf now ∧ hourOf now < 22)
    ∧ (levelHasAccess now LevelHiatus target).1 = false
    ∧ ((levelHasAccess now LevelLegacy target).1 = true ↔
        (11 ≤ hourOf now ∧ hourOf now < 22) ∧ target = TargetDownstairs)
    ∧ (∀ level : Level,
        level ∉ [LevelMember, LevelFulltimeUser, LevelUser, LevelHiatus, LevelLegacy] →
        (levelHasAccess now level target).1 = false) := by
  refine ⟨?_, ?_, ?_, ?_, ?_, ?_⟩
  · simp [levelHasAccess]
  · rw [levelHasAccess_fulltime_fst]
    simp only [isFulltimeUserDaytime, Bool.and_eq_true, decide_eq_true_eq]
    omega
  · rw [levelHasAccess_user_fst]
    simp only [isUserDaytime, Bool.and_eq_true, decide_eq_true_eq]
  · simp [levelHasAccess, LevelHiatus, LevelMember, LevelFulltimeUser, LevelUser]
  · simp only [levelHasAccess, LevelLegacy, LevelMember, LevelFulltimeUser, LevelUser,
      LevelHiatus]
    rw [← isUserDaytime_iff]
    cases hd : isUserDaytime now
    · simp [hd]
    · simp [hd]
  · intro level hmem
    simp only [List.mem_cons, List.mem_singleton, not_or] at hmem
    obtain ⟨h1, h2, h3, h4, h5, _⟩ := hmem
    simp [levelHasAccess, h1, h2, h3, h4, h5]

/-- Witness for C2 at hour 15: a member and a fulltime user are granted,
an unknown level is denied. -/
theorem claim2_level_table_witness :
    levelHasAccess 54000 LevelMember "upstairs" = (true, "")
    ∧ (levelHasAccess 54000 LevelFulltimeUser "upstairs").1 = true
    ∧ (levelHasAccess 54000 "visitor" "upstairs").1 = false := by
  have h := claim2_level_table 54000 "upstairs"
  exact ⟨h.1, (h.2.1).mpr (by decide), h.2.2.2.2.2 "visitor" (by decide)⟩

/-- C6: reloadIfChanged is a no-op when the stat fails, when the marker
is unchanged, or when the rebuild fails; otherwise the table and marker
are replaced together by the newly built snapshot. -/
theorem claim6_reload_frame (a : FileBasedAuthenticator) (statResult : Option Nat)
    (rebuilt : Option FileBasedAuthenticator) :
    (statResult = none → reloadIfChanged a statResult rebuilt = a)
    ∧ (∀ t, statResult = some t → a.fileTimestamp = t →
        reloadIfChanged a statResult rebuilt = a)
    ∧ (∀ t, statResult = some t → a.fileTimestamp ≠ t → rebuilt = none →
        reloadIfChanged a statResult rebuilt = a)
    ∧ (∀ t n, statResult = some t → a.fileTimestamp ≠ t → rebuilt = some n →
        reloadIfChanged a statResult rebuilt
          = { a with fileTimestamp := n.fileTimestamp, validUsers := n.validUsers }) := by
  refine ⟨?_, ?_, ?_, ?_⟩
  · intro h
    subst h
    rfl
  · intro t h he
    subst h
    simp [reloadIfChanged, he]
  · intro t h hne hr
    subst h
    subst hr
    simp [reloadIfChanged, hne]
  · intro t n h hne hr
    subst h
    subst hr
    simp [reloadIfChanged, hne]

/-- A stale authenticator used to witness the reload behaviour. -/
def c6Old : FileBasedAuthenticator := ⟨"users.csv", 1, fun _ => none⟩

/-- A record in the freshly rebuilt snapshot. -/
def c6User : User := ⟨"Dana", "dana at example", LevelMember, ["c6code"], 0, 0, []⟩

/-- The freshly rebuilt snapshot for the reload witness. -/
def c6New : FileBasedAuthenticator :=
  ⟨"users.csv", 5, fun k => if k = "c6code" then some c6User else none⟩

/-- Witness for C6: the three no-op cases and the swap case at concrete
states. -/
theorem claim6_reload_frame_witness :
    reloadIfChanged c6Old none (some c6New) = c6Old
    ∧ reloadIfChanged c6Old (some 1) (some c6New) = c6Old
    ∧ reloadIfChanged c6Old (some 5) none = c6Old
    ∧ reloadIfChanged c6Old (some 5) (some c6New)
        = { c6Old with fileTimestamp := c6New.fileTimestamp, validUsers := c6New.validUsers } := by
  have h1 := claim6_reload_frame c6Old none (some c6New)
  have h2 := claim6_reload_frame c6Old (some 1) (some c6New)
  have h3 := claim6_reload_frame c6Old (some 5) none
  have h4 := claim6_reload_frame c6Old (some 5) (some c6New)
  exact ⟨h1.1 rfl, h2.2.1 1 rfl rfl, h3.2.2.1 5 rfl (by decide) rfl,
    h4.2.2.2 5 c6New rfl (by decide) rfl⟩

/-- C7: a code below the length floor is denied with the too-short
reason for every store, file state, clock value and target, and the
state is returned untouched (no reload, store never consulted). -/
theorem claim7_short_code_denied (a : FileBasedAuthenticator) (statResult : Option Nat)
    (rebuilt : Option FileBasedAuthenticator) (now : Nat) (code : String) (target : Target)
    (h : hasMinimalCodeRequirements code = false) :
    AuthUser a statResult rebuilt now code target
      = ((false, "Auth failed: too short code."), a) := by
  simp [AuthUser, h]

/-- A record for the short-code witness. -/
def c7User : User := ⟨"Eve", "eve at example", LevelMember, ["c7code"], 0, 0, []⟩

/-- An authenticator whose table answers every key, to witness that the
too-short denial ignores the table. -/
def c7Auth : FileBasedAuthenticator := ⟨"users.csv", 0, fun _ => some c7User⟩

/-- Witness for C7: a five-byte code is denied unchanged even though the
table maps every key and the backing file changed. -/
theorem claim7_short_code_denied_witness :
    hasMinimalCodeRequirements "12345" = false
    ∧ AuthUser c7Auth (some 9) none 54000 "12345" "upstairs"
        = ((false, "Auth failed: too short code."), c7Auth) :=
  ⟨by decide, claim7_short_code_denied c7Auth (some 9) none 54000 "12345" "upstairs" (by decide)⟩

/-- C10: FindUser applies no minimum-length check: whenever the hash of
a plain code is mapped, FindUser returns the record, even for codes so
short that AuthUser rejects them as too short. -/
theorem claim10_finduser_no_length_floor (a : FileBasedAuthenticator) (plain : String)
    (user : User) (h : a.validUsers (hashAuthCode plain) = some user) :
    FindUser a plain = some user
    ∧ (hasMinimalCodeRequirements plain = false →
        ∀ statResult rebuilt now target,
          (AuthUser a statResult rebuilt now plain target).1
            = (false, "Auth failed: too short code.")) := by
  constructor
  · simp [FindUser, findUserSynchronized, h]
  · intro hs statResult rebuilt now target
    simp [AuthUser, hs]

/-- A record reachable through a four-byte plain code. -/
def c10User : User := ⟨"Frank", "frank at example", LevelMember, [hashAuthCode "1234"], 0, 0, []⟩

/-- An authenticator mapping the hash of the short plain code 1234. -/
def c10Auth : FileBasedAuthenticator :=
  ⟨"users.csv", 0, fun k => if k = hashAuthCode "1234" then some c10User else none⟩

/-- Witness for C10: FindUser resolves the four-byte code 1234 that
AuthUser rejects as too short. -/
theorem claim10_finduser_no_length_floor_witness :
    FindUser c10Auth "1234" = some c10User
    ∧ (AuthUser c10Auth none none 0 "1234" "upstairs").1
        = (false, "Auth failed: too short code.") := by
  have h := claim10_finduser_no_length_floor c10Auth "1234" c10User (by simp [c10Auth])
  exact ⟨h.1, h.2 (by decide) none none 0 "upstairs"⟩

/-- Hex-encoding a byte list yields two characters per byte. -/
theorem byteHex_flatten_length (bs : List Nat) :
    ((bs.map byteHex).flatten).length = 2 * bs.length := by
  induction bs with
  | nil => rfl
  | cons b rest ih =>
    simp only [List.map_cons, List.flatten_cons, List.length_append, ih, byteHex,
      List.length_cons, List.length_nil]
    omega

/-- The MD5 digest always has sixteen bytes. -/
theorem md5Bytes_length (msg : List Nat) : (md5Bytes msg).length = 16 := by
  simp [md5Bytes, le4]

/-- Every hashed key has exactly 32 characters. -/
theorem hashAuthCode_length (plain : String) : (hashAuthCode plain).length = 32 := by
  show ((((md5Bytes (strBytes
    (String.append "MakeThisALittleBitLongerToChewOnEarlFoo" plain))).map byteHex).flatten).length)
    = 32
  rw [byteHex_flatten_length, md5Bytes_length]

/-- Every character produced for a nibble is a hexadecimal digit. -/
theorem hexChar_mem_hexDigits (n : Nat) : hexChar n ∈ hexDigits := by
  unfold hexChar List.getD
  cases h : hexDigits.get? n with
  | none =>
    simp only [h, Option.getD_none]
    decide
  | some c =>
    have hm := List.get?_mem h
    simp [h, hm]

/-- Every character of a hex-encoded byte list is a hexadecimal digit. -/
theorem hexEncodeBytes_all_hex (bs : List Nat) :
    ∀ c ∈ (hexEncodeBytes bs).data, c ∈ hexDigits := by
  intro c hc
  have hd : (hexEncodeBytes bs).data = (bs.map byteHex).flatten := rfl
  rw [hd] at hc
  rcases List.mem_flatten.mp hc with ⟨l, hl, hcl⟩
  rcases List.mem_map.mp hl with ⟨b, _, rfl⟩
  simp only [byteHex, List.mem_cons, List.mem_singleton, List.not_mem_nil, or_false] at hcl
  rcases hcl with h1 | h2
  · rw [h1]
    exact hexChar_mem_hexDigits _
  · rw [h2]
    exact hexChar_mem_hexDigits _

/-- C9: hashAuthCode is a pure function of its input string, so any two
applications to equal inputs yield the identical key, and for every
input the key is a fixed-width 32-character string of hexadecimal
digits. -/
theorem claim9_hash_deterministic_fixed_width (s t : String) :
    (hashAuthCode s).length = 32
    ∧ (hashAuthCode s).data.all (fun c => decide (c ∈ hexDigits)) = true
    ∧ (s = t → hashAuthCode s = hashAuthCode t) := by
  refine ⟨hashAuthCode_length s, ?_, fun h => by rw [h]⟩
  rw [List.all_eq_true]
  intro c hc
  exact decide_eq_true (hexEncodeBytes_all_hex _ c hc)

/-- Witness for C9 at a concrete credential. -/
theorem claim9_hash_deterministic_fixed_width_witness :
    (hashAuthCode "ABCDEF12").length = 32 ∧ hashAuthCode "ABCDEF12" = hashAuthCode "ABCDEF12" := by
  have h := claim9_hash_deterministic_fixed_width "ABCDEF12" "ABCDEF12"
  exact ⟨h.1, h.2.2 rfl⟩

/-- The character data of an appended string is the appended data. -/
theorem string_data_append (s t : String) : (String.append s t).data = s.data ++ t.data := by
  cases s
  cases t
  rfl

/-- C3 (amended): for every record whose level is Hiatus, AuthUser with
any code that meets the minimal length floor and resolves to that record
at lookup time denies, with a reason containing the record name and
contact info, for every target and clock value, before the
validity-window check and the access-policy decision. -/
theorem claim3_hiatus_reason_amended (a : FileBasedAuthenticator) (statResult : Option Nat)
    (rebuilt : Option FileBasedAuthenticator) (now : Nat) (code : String) (target : Target)
    (user : User) (hmin : hasMinimalCodeRequirements code = true)
    (hfind : (reloadIfChanged a statResult rebuilt).validUsers (hashAuthCode code) = some user)
    (hlevel : user.UserLevel = LevelHiatus) :
    (AuthUser a statResult rebuilt now code target).1
      = (false, String.append "User on hiatus \x27" (String.append user.Name
          (String.append " <" (String.append user.ContactInfo ">\x27"))))
    ∧ user.Name.data <:+: (AuthUser a statResult rebuilt now code target).1.2.data
    ∧ user.ContactInfo.data <:+: (AuthUser a statResult rebuilt now code target).1.2.data := by
  have hres : (AuthUser a statResult rebuilt now code target).1
      = (false, String.append "User on hiatus \x27" (String.append user.Name
          (String.append " <" (String.append user.ContactInfo ">\x27")))) := by
    simp [AuthUser, hmin, findUserSynchronized, hfind, hlevel]
  refine ⟨hres, ?_, ?_⟩
  · rw [hres]
    refine ⟨"User on hiatus \x27".data,
      (String.append " <" (String.append user.ContactInfo ">\x27")).data, ?_⟩
    simp [string_data_append, List.append_assoc]
  · rw [hres]
    refine ⟨"User on hiatus \x27".data ++ user.Name.data ++ " <".data, ">\x27".data, ?_⟩
    simp [string_data_append, List.append_assoc]

/-- A Hiatus record whose only stored key is the hash of the four-byte
plain code 1234. -/
def c3User : User :=
  ⟨"Alice", "alice at example", LevelHiatus, [hashAuthCode "1234"], 0, 0, []⟩

/-- The store holding that Hiatus record. -/
def c3Auth : FileBasedAuthenticator :=
  ⟨"users.csv", 0, fun k => if k = hashAuthCode "1234" then some c3User else none⟩

/-- C3 counterexample: a Hiatus record reachable only through a plain
code shorter than the length floor is denied by the too-short check, so
the reason names neither the holder nor the contact info, refuting the
claim as stated for such codes. -/
theorem claim3_hiatus_counterexample :
    c3User.UserLevel = LevelHiatus
    ∧ c3Auth.validUsers (hashAuthCode "1234") = some c3User
    ∧ (AuthUser c3Auth none none 0 "1234" "upstairs").1.1 = false
    ∧ ¬ (c3User.Name.data <:+: (AuthUser c3Auth none none 0 "1234" "upstairs").1.2.data) := by
  refine ⟨rfl, by simp [c3Auth], ?_, ?_⟩
  · decide
  · decide

/-- A Hiatus record reachable through an eight-byte plain code. -/
def c3LongUser : User :=
  ⟨"Alice", "alice at example", LevelHiatus, [hashAuthCode "ABCDEF12"], 7, 9, []⟩

/-- The store holding the long-code Hiatus record. -/
def c3LongAuth : FileBasedAuthenticator :=
  ⟨"users.csv", 0, fun k => if k = hashAuthCode "ABCDEF12" then some c3LongUser else none⟩

/-- Witness for the amended C3, at a clock value outside the record
validity window, showing the Hiatus denial takes precedence. -/
theorem claim3_hiatus_reason_amended_witness :
    (AuthUser c3LongAuth none none 100 "ABCDEF12" "upstairs").1
      = (false, String.append "User on hiatus \x27" (String.append c3LongUser.Name
          (String.append " <" (String.append c3LongUser.ContactInfo ">\x27"))))
    ∧ c3LongUser.Name.data <:+: (AuthUser c3LongAuth none none 100 "ABCDEF12" "upstairs").1.2.data
    ∧ c3LongUser.ContactInfo.data
        <:+: (AuthUser c3LongAuth none none 100 "ABCDEF12" "upstairs").1.2.data :=
  claim3_hiatus_reason_amended c3LongAuth none none 100 "ABCDEF12" "upstairs" c3LongUser
    (by decide) (by simp [reloadIfChanged, c3LongAuth]) rfl

/-- The length of an appended string is the sum of the lengths. -/
theorem string_length_append (s t : String) :
    (String.append s t).length = s.length + t.length := by
  cases s with
  | mk l1 =>
    cases t with
    | mk l2 =>
      show (l1 ++ l2).length = l1.length + l2.length
      exact List.length_append l1 l2

/-- The Hiatus deny reason is never the empty string. -/
theorem hiatus_reason_ne_empty (n ci : String) :
    String.append "User on hiatus \x27" (String.append n
      (String.append " <" (String.append ci ">\x27"))) ≠ "" := by
  intro h
  have h2 := congrArg String.length h
  rw [string_length_append] at h2
  have h3 : ("User on hiatus \x27" : String).length = 16 := rfl
  have h4 : ("" : String).length = 0 := rfl
  omega

/-- A deny with an empty reason can only come out of the switch in its
Legacy wrong-target branch or its unknown-level fallthrough. -/
theorem levelHasAccess_false_empty (now : Nat) (level : Level) (target : Target)
    (h : levelHasAccess now level target = (false, "")) :
    (level = LevelLegacy ∧ isUserDaytime now = true ∧ target ≠ TargetDownstairs)
    ∨ level ∉ [LevelMember, LevelFulltimeUser, LevelUser, LevelHiatus, LevelLegacy] := by
  unfold levelHasAccess at h
  split_ifs at h <;> simp_all

/-- C8 (amended): whenever AuthUser denies with an empty reason, the
code resolved to a record that passed the Hiatus and validity checks and
was denied either as a Legacy record asking for a non-downstairs target
during daytime, or as a record with a level outside the enumeration;
every other denial carries a non-empty reason. -/
theorem claim8_deny_reason_amended (a : FileBasedAuthenticator) (statResult : Option Nat)
    (rebuilt : Option FileBasedAuthenticator) (now : Nat) (code : String) (target : Target)
    (hfalse : (AuthUser a statResult rebuilt now code target).1.1 = false)
    (hempty : (AuthUser a statResult rebuilt now code target).1.2 = "") :
    ∃ user, (reloadIfChanged a statResult rebuilt).validUsers (hashAuthCode code) = some user
      ∧ user.UserLevel ≠ LevelHiatus
      ∧ user.InValidityPeriod now = true
      ∧ ((user.UserLevel = LevelLegacy ∧ isUserDaytime now = true ∧ target ≠ TargetDownstairs)
          ∨ user.UserLevel
              ∉ [LevelMember, LevelFulltimeUser, LevelUser, LevelHiatus, LevelLegacy]) := by
  by_cases hmin : hasMinimalCodeRequirements code = true
  · cases hfind : (reloadIfChanged a statResult rebuilt).validUsers (hashAuthCode code) with
    | none =>
      simp only [AuthUser, findUserSynchronized, hmin, Bool.not_true, Bool.false_eq_true,
        if_false, hfind] at hempty
      simp at hempty
    | some user =>
      by_cases hh : user.UserLevel = LevelHiatus
      · exfalso
        simp only [AuthUser, findUserSynchronized, hmin, Bool.not_true, Bool.false_eq_true,
          if_false, hfind, hh, if_pos] at hempty
        exact hiatus_reason_ne_empty user.Name user.ContactInfo (by simpa using hempty)
      · by_cases hv : user.InValidityPeriod now = true
        · have hred : (AuthUser a statResult rebuilt now code target).1
              = levelHasAccess now user.UserLevel target := by
            simp [AuthUser, findUserSynchronized, hmin, hfind, hh, hv]
          rw [hred] at hfalse hempty
          refine ⟨user, rfl, hh, hv, levelHasAccess_false_empty now user.UserLevel target ?_⟩
          rcases hq : levelHasAccess now user.UserLevel target with ⟨b, s⟩
          rw [hq] at hfalse hempty
          simp only at hfalse hempty
          rw [hfalse, hempty]
        · rw [Bool.not_eq_true] at hv
          simp only [AuthUser, findUserSynchronized, hmin, Bool.not_true, Bool.false_eq_true,
            if_false, hfind, hh, hv, Bool.not_false, if_true, if_neg] at hempty
          simp at hempty
  · rw [Bool.not_eq_true] at hmin
    simp only [AuthUser, hmin, Bool.not_false, if_true] at hempty
    simp at hempty

/-- A Legacy record reachable through the plain code ABCDEF. -/
def c8User : User := ⟨"Bob", "bob at example", LevelLegacy, [hashAuthCode "ABCDEF"], 0, 0, []⟩

/-- The store holding that Legacy record. -/
def c8Auth : FileBasedAuthenticator :=
  ⟨"users.csv", 0, fun k => if k = hashAuthCode "ABCDEF" then some c8User else none⟩

/-- C8 counterexample: at hour 15 a valid Legacy record asking for a
non-downstairs target is denied with an empty reason string, refuting
the claim that every denial carries a non-empty reason. -/
theorem claim8_deny_reason_counterexample :
    (AuthUser c8Auth none none 54000 "ABCDEF" "upstairs").1 = (false, "") := by
  decide

/-- Witness for the amended C8 at the Legacy wrong-target denial. -/
theorem claim8_deny_reason_amended_witness :
    c8User.UserLevel ≠ LevelHiatus
    ∧ c8User.InValidityPeriod 54000 = true
    ∧ (c8User.UserLevel = LevelLegacy ∧ isUserDaytime 54000 = true
        ∧ ("upstairs" : Target) ≠ TargetDownstairs
        ∨ c8User.UserLevel
            ∉ [LevelMember, LevelFulltimeUser, LevelUser, LevelHiatus, LevelLegacy]) := by
  obtain ⟨u, hu, h1, h2, h3⟩ :=
    claim8_deny_reason_amended c8Auth none none 54000 "ABCDEF" "upstairs" (by decide) (by decide)
  have hc : (reloadIfChanged c8Auth none none).validUsers (hashAuthCode "ABCDEF")
      = some c8User := by
    simp [reloadIfChanged, c8Auth]
  rw [hc] at hu
  have he : c8User = u := Option.some_inj.mp hu
  rw [← he] at h1 h2 h3
  exact ⟨h1, h2, h3⟩

/-- The candidate stamping always overwrites the sponsor trail with the
single hashed sponsor code. -/
theorem stampUser_sponsors (user : User) (authentication_code : String) (now : Nat) :
    (stampUser user authentication_code now).Sponsors = [hashAuthCode authentication_code] := by
  simp only [stampUser]
  split_ifs <;> rfl

/-- The candidate stamping defaults an unset ValidFrom to the current
clock value and keeps a set one. -/
theorem stampUser_validFrom (user : User) (authentication_code : String) (now : Nat) :
    (stampUser user authentication_code now).ValidFrom
      = (if user.ValidFrom = 0 then now else user.ValidFrom) := by
  simp only [stampUser]
  split_ifs <;> rfl

/-- The candidate stamping does not touch the code list. -/
theorem stampUser_codes (user : User) (authentication_code : String) (now : Nat) :
    (stampUser user authentication_code now).Codes = user.Codes := by
  simp only [stampUser]
  split_ifs <;> rfl

/-- C4: AddNewUser returns ok only when the sponsor code resolves, the
sponsor is a Member and the sponsor is inside its validity window; each
failing check rejects with its reason and no state change; and when the
checks pass and the codes are fresh, the stored candidate carries
exactly the hashed sponsor code as its one-element sponsor list and a
ValidFrom defaulted to the clock iff it was unset. -/
theorem claim4_addnewuser_sponsor_gate (a : FileBasedAuthenticator) (now : Nat)
    (openErr : Option String) (writeErr : Option String) (newModTime : Nat) (code : String)
    (user : User) :
    ((AddNewUser a now openErr writeErr newModTime code user).1.1 = true →
      ∃ sponsor, a.validUsers (hashAuthCode code) = some sponsor
        ∧ sponsor.UserLevel = LevelMember ∧ sponsor.InValidityPeriod now = true)
    ∧ (a.validUsers (hashAuthCode code) = none →
        AddNewUser a now openErr writeErr newModTime code user
          = ((false, "Couldn\x27t find member with authentication code"), a))
    ∧ (∀ sponsor, a.validUsers (hashAuthCode code) = some sponsor →
        sponsor.UserLevel ≠ LevelMember →
        AddNewUser a now openErr writeErr newModTime code user
          = ((false, "Non-member AddNewUser attempt"), a))
    ∧ (∀ sponsor, a.validUsers (hashAuthCode code) = some sponsor →
        sponsor.UserLevel = LevelMember → sponsor.InValidityPeriod now = false →
        AddNewUser a now openErr writeErr newModTime code user
          = ((false, "Auth-Member not in valid time-frame"), a))
    ∧ ((stampUser user code now).Sponsors = [hashAuthCode code]
        ∧ (stampUser user code now).ValidFrom
            = (if user.ValidFrom = 0 then now else user.ValidFrom))
    ∧ (∀ sponsor, a.validUsers (hashAuthCode code) = some sponsor →
        sponsor.UserLevel = LevelMember → sponsor.InValidityPeriod now = true →
        (∀ c ∈ (stampUser user code now).Codes, a.validUsers c = none) →
        ∀ c ∈ (stampUser user code now).Codes,
          (AddNewUser a now openErr writeErr newModTime code user).2.validUsers c
            = some (stampUser user code now)) := by
  refine ⟨?_, ?_, ?_, ?_, ⟨stampUser_sponsors user code now, stampUser_validFrom user code now⟩,
    ?_⟩
  · intro hok
    cases hfind : a.validUsers (hashAuthCode code) with
    | none => simp [AddNewUser, findUserSynchronized, hfind] at hok
    | some sponsor =>
      have hl : sponsor.UserLevel = LevelMember := by
        by_contra hl
        simp [AddNewUser, findUserSynchronized, hfind, hl] at hok
      have hv : sponsor.InValidityPeriod now = true := by
        by_contra hv
        rw [Bool.not_eq_true] at hv
        simp [AddNewUser, findUserSynchronized, hfind, hl, hv] at hok
      exact ⟨sponsor, rfl, hl, hv⟩
  · intro hfind
    simp [AddNewUser, findUserSynchronized, hfind]
  · intro sponsor hfind hl
    simp [AddNewUser, findUserSynchronized, hfind, hl]
  · intro sponsor hfind hl hv
    simp [AddNewUser, findUserSynchronized, hfind, hl, hv]
  · intro sponsor hfind hl hv hnc c hc
    have hadd := addUser_success a (stampUser user code now) hnc
    have hins : (addUserSynchronized a (stampUser user code now)).2.validUsers c
        = some (stampUser user code now) := hadd.2.1 c hc
    cases openErr with
    | some e =>
      simp only [AddNewUser, findUserSynchronized, hfind, hl, ne_eq, not_true_eq_false,
        Bool.false_eq_true, if_false, hv, Bool.not_true, hadd.1, if_neg]
      simp [hadd.1, hins]
    | none =>
      simp only [AddNewUser, findUserSynchronized, hfind, hl, ne_eq, not_true_eq_false,
        Bool.false_eq_true, if_false, hv, Bool.not_true, hadd.1, if_neg]
      simp [hadd.1, hins]

/-- The Member sponsor for the provisioning witness. -/
def c4Sponsor : User :=
  ⟨"Grace", "grace at example", LevelMember, [hashAuthCode "SPONSOR1"], 0, 0, []⟩

/-- The store holding only the sponsor. -/
def c4Auth : FileBasedAuthenticator :=
  ⟨"users.csv", 3, fun k => if k = hashAuthCode "SPONSOR1" then some c4Sponsor else none⟩

/-- The candidate record with a fresh code and a stale sponsor trail. -/
def c4Candidate : User :=
  ⟨"Henry", "henry at example", LevelUser, [hashAuthCode "NEWCODE1"], 0, 0, ["stale"]⟩

/-- Witness for C4: a valid Member sponsor adds the candidate; the
stored record carries exactly the hashed sponsor code and a defaulted
ValidFrom. -/
theorem claim4_addnewuser_sponsor_gate_witness :
    (stampUser c4Candidate "SPONSOR1" 100).Sponsors = [hashAuthCode "SPONSOR1"]
    ∧ (stampUser c4Candidate "SPONSOR1" 100).ValidFrom = 100
    ∧ (AddNewUser c4Auth 100 none none 9 "SPONSOR1" c4Candidate).2.validUsers
        (hashAuthCode "NEWCODE1") = some (stampUser c4Candidate "SPONSOR1" 100) := by
  have h := claim4_addnewuser_sponsor_gate c4Auth 100 none none 9 "SPONSOR1" c4Candidate
  have hmem : hashAuthCode "NEWCODE1" ∈ (stampUser c4Candidate "SPONSOR1" 100).Codes := by
    rw [stampUser_codes]
    exact List.mem_singleton.mpr rfl
  have hfresh : ∀ c ∈ (stampUser c4Candidate "SPONSOR1" 100).Codes,
      c4Auth.validUsers c = none := by
    intro c hc
    rw [stampUser_codes] at hc
    rw [List.mem_singleton.mp hc]
    decide
  refine ⟨h.2.2.2.2.1.1, ?_, ?_⟩
  · rw [h.2.2.2.2.1.2]
    rfl
  · exact h.2.2.2.2.2 c4Sponsor (by decide) rfl (by decide) hfresh
      (hashAuthCode "NEWCODE1") hmem

/-- C5 (amended): after the sponsor checks pass and the in-memory insert
succeeds, a failure of os.OpenFile surfaces as a reject carrying the
error text, with the candidate still retrievable through FindUser and
the modified marker untouched (no rollback); but errors of the csv
write, flush and close are discarded — the outcome never depends on
them, and when the open succeeds AddNewUser returns ok with an empty
reason and stamps the marker even though the write failed. -/
theorem claim5_persist_failure_no_rollback (a : FileBasedAuthenticator) (now : Nat) (e : String)
    (writeErr : Option String) (w : String) (newModTime : Nat) (code : String) (user : User)
    (sponsor : User)
    (hfind : a.validUsers (hashAuthCode code) = some sponsor)
    (hl : sponsor.UserLevel = LevelMember)
    (hv : sponsor.InValidityPeriod now = true)
    (hnc : ∀ c ∈ (stampUser user code now).Codes, a.validUsers c = none) :
    (AddNewUser a now (some e) writeErr newModTime code user).1 = (false, e)
    ∧ (∀ plain, hashAuthCode plain ∈ (stampUser user code now).Codes →
        FindUser (AddNewUser a now (some e) writeErr newModTime code user).2 plain
          = some (stampUser user code now))
    ∧ (AddNewUser a now (some e) writeErr newModTime code user).2.fileTimestamp = a.fileTimestamp
    ∧ (∀ oe w1 w2, AddNewUser a now oe w1 newModTime code user
        = AddNewUser a now oe w2 newModTime code user)
    ∧ (AddNewUser a now none (some w) newModTime code user).1 = (true, "")
    ∧ (AddNewUser a now none (some w) newModTime code user).2.fileTimestamp = newModTime := by
  have hadd := addUser_success a (stampUser user code now) hnc
  have hstate : (AddNewUser a now (some e) writeErr newModTime code user)
      = ((false, e), (addUserSynchronized a (stampUser user code now)).2) := by
    simp only [AddNewUser, findUserSynchronized, hfind, hl, ne_eq, not_true_eq_false,
      Bool.false_eq_true, if_false, hv, Bool.not_true]
    simp [hadd.1]
  have hstate2 : (AddNewUser a now none (some w) newModTime code user)
      = ((true, ""), { (addUserSynchronized a (stampUser user code now)).2 with
          fileTimestamp := newModTime }) := by
    simp only [AddNewUser, findUserSynchronized, hfind, hl, ne_eq, not_true_eq_false,
      Bool.false_eq_true, if_false, hv, Bool.not_true]
    simp [hadd.1]
  refine ⟨by rw [hstate], ?_, ?_, fun oe w1 w2 => rfl, by rw [hstate2], by rw [hstate2]⟩
  · intro plain hmem
    rw [hstate]
    simp only [FindUser, findUserSynchronized]
    rw [hadd.2.1 (hashAuthCode plain) hmem]
  · rw [hstate]
    exact hadd.2.2.2.1

/-- The Member sponsor for the persistence-failure witness. -/
def c5Sponsor : User :=
  ⟨"Iris", "iris at example", LevelMember, [hashAuthCode "SPONSOR2"], 0, 0, []⟩

/-- The store holding only that sponsor. -/
def c5Auth : FileBasedAuthenticator :=
  ⟨"users.csv", 3, fun k => if k = hashAuthCode "SPONSOR2" then some c5Sponsor else none⟩

/-- The candidate for the persistence-failure witness. -/
def c5Candidate : User :=
  ⟨"Jules", "jules at example", LevelUser, [hashAuthCode "NEWCODE2"], 50, 0, []⟩

/-- C5 counterexample: with the open succeeding and the csv write
failing, AddNewUser still returns ok with an empty reason and stamps the
marker after the successful in-memory insert: a persistence I/O failure
that does not surface as a reject, refuting the claim as stated. -/
theorem claim5_persist_counterexample :
    (AddNewUser c5Auth 100 none (some "short write") 9 "SPONSOR2" c5Candidate).1 = (true, "")
    ∧ (AddNewUser c5Auth 100 none (some "short write") 9 "SPONSOR2"
        c5Candidate).2.fileTimestamp = 9 := by
  constructor
  · decide
  · decide

/-- Witness for the amended C5: with the file open failing, AddNewUser
rejects with the error text yet the candidate is retrievable through
FindUser; with the open succeeding and the write failing, it returns ok
with an empty reason. -/
theorem claim5_persist_failure_no_rollback_witness :
    (AddNewUser c5Auth 100 (some "open users.csv: permission denied") none 9 "SPONSOR2"
        c5Candidate).1 = (false, "open users.csv: permission denied")
    ∧ FindUser (AddNewUser c5Auth 100 (some "open users.csv: permission denied") none 9 "SPONSOR2"
        c5Candidate).2 "NEWCODE2" = some (stampUser c5Candidate "SPONSOR2" 100)
    ∧ (AddNewUser c5Auth 100 (some "open users.csv: permission denied") none 9 "SPONSOR2"
        c5Candidate).2.fileTimestamp = c5Auth.fileTimestamp
    ∧ (AddNewUser c5Auth 100 none (some "disk full") 9 "SPONSOR2" c5Candidate).1 = (true, "") := by
  have hfresh : ∀ c ∈ (stampUser c5Candidate "SPONSOR2" 100).Codes,
      c5Auth.validUsers c = none := by
    intro c hc
    rw [stampUser_codes] at hc
    rw [List.mem_singleton.mp hc]
    decide
  have h := claim5_persist_failure_no_rollback c5Auth 100 "open users.csv: permission denied"
    none "disk full" 9 "SPONSOR2" c5Candidate c5Sponsor (by decide) rfl (by decide) hfresh
  have hmem : hashAuthCode "NEWCODE2" ∈ (stampUser c5Candidate "SPONSOR2" 100).Codes := by
    rw [stampUser_codes]
    exact List.mem_singleton.mpr rfl
  exact ⟨h.1, h.2.1 "NEWCODE2" hmem, h.2.2.1, h.2.2.2.2.1⟩
